import Mathlib

/-!
Verification of the autowah effect processor (Alc/effects/autowah.cpp).

The C++ floating-point arithmetic is modelled over an abstract linear ordered
field `α` (instantiated at `ℚ` for concrete evaluation and at `ℝ` where facts
about the real trigonometric functions are needed).  The transcendental
functions used by the code (`expf`, `log10`, `sqrt`, `cosf`, `sinf`) and the
constant `2π` are supplied through an `Ops` record, so every definition stays
computable and is a direct transcription of the source.
-/

namespace Autowah

variable {α : Type} [LinearOrderedField α]

/-- The transcendental operations and the `2π` constant (`al::MathDefs<float>::Tau()`)
used by autowah.cpp, abstracted so the algorithm definitions stay computable. -/
structure Ops (α : Type) where
  exp : α → α
  log10 : α → α
  sqrt : α → α
  cos : α → α
  sin : α → α
  tau : α

/-- The preprocessor constant MIN_FREQ, 20.0f (autowah.cpp). -/
def MIN_FREQ [LinearOrderedField α] : α := 20

/-- The preprocessor constant MAX_FREQ, 2500.0f (autowah.cpp). -/
def MAX_FREQ [LinearOrderedField α] : α := 2500

/-- The preprocessor constant Q_FACTOR, 5.0f (autowah.cpp). -/
def Q_FACTOR [LinearOrderedField α] : α := 5

/-- Modelled from the spec: the EFX header constant `AL_AUTOWAH_MAX_PEAK_GAIN`
(31621, linear gain); the header is not under src/, the value is the documented
OpenAL EFX maximum for the peak-gain parameter. -/
def AL_AUTOWAH_MAX_PEAK_GAIN [LinearOrderedField α] : α := 31621

/-- Modelled from the spec: `minf` of alu.h (header not under src/): the
smaller of two values. -/
def minf (a b : α) : α := min a b

/-- Modelled from the spec: `maxf` of alu.h (header not under src/): the
larger of two values. -/
def maxf (a b : α) : α := max a b

/-- Modelled from the spec: `clampf` of alu.h (header not under src/):
`clampf(val, min, max) = minf(max, maxf(min, val))`, the clamp of the spec. -/
def clampf (val minval maxval : α) : α := minf maxval (maxf minval val)

/-- Modelled from the spec: `lerp` of alu.h (header not under src/):
`lerp(val1, val2, mu) = val1 + (val2 - val1)·mu`; the spec states
`lerp(sample, envelopeDelay, a) = envelopeDelay·a + sample·(1−a)`. -/
def lerp (val1 val2 mu : α) : α := val1 + (val2 - val1) * mu

/-- The Autowah member of the `EffectProps` union: the four raw parameters. -/
structure AutowahProps (α : Type) where
  AttackTime : α
  ReleaseTime : α
  Resonance : α
  PeakGain : α
deriving DecidableEq

/-- One entry of the per-sample envelope scratch array `mEnv`: the cosine and
alpha components of that sample's filter. -/
structure EnvEntry (α : Type) where
  cos_w0 : α
  alpha : α
deriving DecidableEq

/-- One entry of `mChans`: the biquad history `z1, z2` and the per-output
gain arrays.  The fixed C arrays (`MAX_OUTPUT_CHANNELS` entries) are modelled
as functions on `Nat`. -/
structure ChanState (α : Type) where
  z1 : α
  z2 : α
  CurrentGains : Nat → α
  TargetGains : Nat → α

/-- `ALautowahState`: derived coefficients, envelope delay, envelope scratch
(`BUFFERSIZE` entries), per-channel state (`MAX_AMBI_CHANNELS` entries) and
the scratch output buffer; fixed arrays are modelled as functions on `Nat`. -/
structure ALautowahState (α : Type) where
  mAttackRate : α
  mReleaseRate : α
  mResonanceGain : α
  mPeakGain : α
  mFreqMinNorm : α
  mBandwidthNorm : α
  mEnvDelay : α
  mEnv : Nat → EnvEntry α
  mChans : Nat → ChanState α
  mBufferOut : Nat → α

/-- `ALautowahState::deviceUpdate`: re-initializes the derived parameters to
their literal defaults, clears the envelope delay, the envelope scratch, every
channel's `CurrentGains` and filter history, and returns `AL_TRUE`. -/
def deviceUpdate (s : ALautowahState α) : Bool × ALautowahState α :=
  (true,
   { mAttackRate := 1
     mReleaseRate := 1
     mResonanceGain := 10
     mPeakGain := 9/2
     mFreqMinNorm := 9/20000
     mBandwidthNorm := 1/20
     mEnvDelay := 0
     mEnv := fun _ => ⟨0, 0⟩
     mChans := fun c =>
       { z1 := 0
         z2 := 0
         CurrentGains := fun _ => 0
         TargetGains := (s.mChans c).TargetGains }
     mBufferOut := s.mBufferOut })

/-- `ALautowahState::update`: recomputes the six derived coefficients from the
current properties and the device frequency, and recomputes `TargetGains` for
the first `slot->Wet.NumChannels` channels.  The external pan-gain computation
(`ComputePanGains` over `GetAmbiIdentityRow(i)` and the slot gain) is
abstracted as the function argument `panGains`; the routing handle
`mOutTarget` is external state and is not modelled. -/
def update (ops : Ops α) (props : AutowahProps α) (frequency : α)
    (wetNumChannels : Nat) (panGains : Nat → Nat → α)
    (s : ALautowahState α) : ALautowahState α :=
  let ReleaseTime := clampf props.ReleaseTime (1/1000) 1
  { s with
    mAttackRate := ops.exp (-1 / (props.AttackTime * frequency))
    mReleaseRate := ops.exp (-1 / (ReleaseTime * frequency))
    mResonanceGain := ops.sqrt (ops.log10 props.Resonance * 10 / 3)
    mPeakGain := 1 - ops.log10 (props.PeakGain / AL_AUTOWAH_MAX_PEAK_GAIN)
    mFreqMinNorm := MIN_FREQ / frequency
    mBandwidthNorm := (MAX_FREQ - MIN_FREQ) / frequency
    mChans := fun c =>
      if c < wetNumChannels then
        { s.mChans c with TargetGains := panGains c }
      else s.mChans c }

/-- One step of the envelope follower (the body of the first loop of
`ALautowahState::process`): `sample = peak_gain·|x|`, pick the attack rate on
a rising sample and the release rate otherwise, then
`env_delay = lerp(sample, env_delay, a)`. -/
def envelopeStep (attack_rate release_rate peak_gain env_delay x : α) : α :=
  let sample := peak_gain * |x|
  let a := if sample > env_delay then attack_rate else release_rate
  lerp sample env_delay a

/-- The envelope delay after the first `n` samples of the block, starting from
the stored delay `e0` and reading the block's channel-0 samples `input`. -/
def envDelayAfter (attack_rate release_rate peak_gain : α) (input : Nat → α)
    (e0 : α) : Nat → α
  | 0 => e0
  | n + 1 =>
    envelopeStep attack_rate release_rate peak_gain
      (envDelayAfter attack_rate release_rate peak_gain input e0 n) (input n)

/-- The angular frequency for one sample of the envelope pass:
`w0 = minf(bandwidth·env_delay + freq_min, 0.46f) · Tau`. -/
def w0val (ops : Ops α) (bandwidth freq_min env_delay : α) : α :=
  minf (bandwidth * env_delay + freq_min) (23/50) * ops.tau

/-- The envelope scratch entry written for one sample:
`cos_w0 = cos(w0)`, `alpha = sin(w0)/(2·Q_FACTOR)`. -/
def envEntryAt (ops : Ops α) (bandwidth freq_min env_delay : α) : EnvEntry α :=
  ⟨ops.cos (w0val ops bandwidth freq_min env_delay),
   ops.sin (w0val ops bandwidth freq_min env_delay) / (2 * Q_FACTOR)⟩

/-- The body of the per-sample filter loop of `ALautowahState::process`: forms
the peaking biquad coefficients from the sample's envelope entry and the
resonance gain, and applies the transposed direct-form update.  Returns
`(output, z1, z2)`. -/
def biquadStep (res_gain : α) (e : EnvEntry α) (z1 z2 input : α) :
    α × α × α :=
  let b0 := 1 + e.alpha * res_gain
  let b1 := -2 * e.cos_w0
  let b2 := 1 - e.alpha * res_gain
  let a0 := 1 + e.alpha / res_gain
  let a1 := -2 * e.cos_w0
  let a2 := 1 - e.alpha / res_gain
  let output := input * (b0 / a0) + z1
  let z1n := input * (b1 / a0) - output * (a1 / a0) + z2
  let z2n := input * (b2 / a0) - output * (a2 / a0)
  (output, z1n, z2n)

/-- The biquad history `(z1, z2)` after the first `i` samples of one channel's
filter pass, starting from the channel's persistent history `z0`. -/
def filterState (res_gain : α) (env : Nat → EnvEntry α) (input : Nat → α)
    (z0 : α × α) : Nat → α × α
  | 0 => z0
  | i + 1 =>
    let z := filterState res_gain env input z0 i
    let r := biquadStep res_gain (env i) z.1 z.2 (input i)
    (r.2.1, r.2.2)

/-- The filter output written to `mBufferOut[i]` during one channel's pass. -/
def filterOut (res_gain : α) (env : Nat → EnvEntry α) (input : Nat → α)
    (z0 : α × α) (i : Nat) : α :=
  (biquadStep res_gain (env i)
    (filterState res_gain env input z0 i).1
    (filterState res_gain env input z0 i).2 (input i)).1

/-- Modelled from the spec: `MixSamples` of alu.cpp is not under src/.  Per
the spec it ramps each output channel's current gain linearly toward the
target gain over the block, accumulates the gain-scaled mono source into the
multi-channel output, and leaves the current gains at the ramped final value
(the target, the ramp interval being the whole block).  Returns the updated
output and the updated current gains. -/
def MixSamples (src : Nat → α) (n : Nat) (out : Nat → Nat → α)
    (cur tgt : Nat → α) : (Nat → Nat → α) × (Nat → α) :=
  (fun j i =>
     if i < n then
       out j i + (cur j + (tgt j - cur j) * ((i + 1 : Nat) : α) / (n : α)) * src i
     else out j i,
   tgt)

/-- One iteration of the channel loop of `ALautowahState::process`: loads
channel `c`'s persistent `z1, z2`, filters the block into the scratch buffer,
stores the final `z1, z2` back, and mixes the scratch buffer into the output
through the gain-ramped mixer. -/
def chanApply (n : Nat) (res_gain : α) (samplesIn : Nat → Nat → α) (c : Nat)
    (st : ALautowahState α × (Nat → Nat → α)) :
    ALautowahState α × (Nat → Nat → α) :=
  let s := st.1
  let ch := s.mChans c
  let zs := filterState res_gain s.mEnv (samplesIn c) (ch.z1, ch.z2)
  let buf : Nat → α := fun i =>
    if i < n then filterOut res_gain s.mEnv (samplesIn c) (ch.z1, ch.z2) i
    else s.mBufferOut i
  let mixed := MixSamples buf n st.2 ch.CurrentGains ch.TargetGains
  ({ s with
      mChans := fun k =>
        if k = c then
          { ch with z1 := (zs n).1, z2 := (zs n).2, CurrentGains := mixed.2 }
        else s.mChans k
      mBufferOut := buf },
   mixed.1)

/-- The channel loop of `ALautowahState::process`, applied to channels
`0, …, c-1` in order. -/
def processLoop (n : Nat) (res_gain : α) (samplesIn : Nat → Nat → α) :
    Nat → ALautowahState α × (Nat → Nat → α) →
    ALautowahState α × (Nat → Nat → α)
  | 0, st => st
  | c + 1, st => chanApply n res_gain samplesIn c
      (processLoop n res_gain samplesIn c st)

/-- The first loop of `ALautowahState::process`: runs the envelope follower
over channel 0 of the input, writing the `(cos_w0, alpha)` scratch entries for
the first `samplesToDo` samples and storing the final envelope delay back into
`mEnvDelay`. -/
def envPassed (ops : Ops α) (samplesToDo : Nat) (samplesIn : Nat → Nat → α)
    (s : ALautowahState α) : ALautowahState α :=
  let E := envDelayAfter s.mAttackRate s.mReleaseRate s.mPeakGain
    (samplesIn 0) s.mEnvDelay
  { s with
    mEnv := fun i =>
      if i < samplesToDo then
        envEntryAt ops s.mBandwidthNorm s.mFreqMinNorm (E (i + 1))
      else s.mEnv i
    mEnvDelay := E samplesToDo }

/-- `ALautowahState::process`: runs the envelope follower over channel 0 of
the input, filling the envelope scratch for the first `samplesToDo` entries
and storing the final envelope delay, then runs the filter-and-mix loop over
the first `numInput` channels.  Returns the new state and the accumulated
output. -/
def process (ops : Ops α) (samplesToDo : Nat) (samplesIn : Nat → Nat → α)
    (numInput : Nat) (samplesOut : Nat → Nat → α) (s : ALautowahState α) :
    ALautowahState α × (Nat → Nat → α) :=
  processLoop samplesToDo s.mResonanceGain samplesIn numInput
    (envPassed ops samplesToDo samplesIn s, samplesOut)

/-- The two AL error codes the autowah parameter entry points can signal
through `alSetError` / `SETERR_RETURN`. -/
inductive ALerror where
  | InvalidValue
  | InvalidEnum
deriving DecidableEq

/-- Modelled from the spec: the EFX parameter identifiers (header not under
src/); four recognized float identifiers, numbered as in the EFX headers. -/
def AL_AUTOWAH_ATTACK_TIME : Nat := 1

/-- Modelled from the spec: EFX identifier for the release-time parameter. -/
def AL_AUTOWAH_RELEASE_TIME : Nat := 2

/-- Modelled from the spec: EFX identifier for the resonance parameter. -/
def AL_AUTOWAH_RESONANCE : Nat := 3

/-- Modelled from the spec: EFX identifier for the peak-gain parameter. -/
def AL_AUTOWAH_PEAK_GAIN : Nat := 4

/-- Modelled from the spec: EFX bound `AL_AUTOWAH_MIN_ATTACK_TIME` (0.0001s). -/
def AL_AUTOWAH_MIN_ATTACK_TIME [LinearOrderedField α] : α := 1/10000

/-- Modelled from the spec: EFX bound `AL_AUTOWAH_MAX_ATTACK_TIME` (1.0s). -/
def AL_AUTOWAH_MAX_ATTACK_TIME [LinearOrderedField α] : α := 1

/-- Modelled from the spec: EFX bound `AL_AUTOWAH_MIN_RELEASE_TIME` (0.0001s). -/
def AL_AUTOWAH_MIN_RELEASE_TIME [LinearOrderedField α] : α := 1/10000

/-- Modelled from the spec: EFX bound `AL_AUTOWAH_MAX_RELEASE_TIME` (1.0s). -/
def AL_AUTOWAH_MAX_RELEASE_TIME [LinearOrderedField α] : α := 1

/-- Modelled from the spec: EFX bound `AL_AUTOWAH_MIN_RESONANCE` (2.0). -/
def AL_AUTOWAH_MIN_RESONANCE [LinearOrderedField α] : α := 2

/-- Modelled from the spec: EFX bound `AL_AUTOWAH_MAX_RESONANCE` (1000.0). -/
def AL_AUTOWAH_MAX_RESONANCE [LinearOrderedField α] : α := 1000

/-- Modelled from the spec: EFX bound `AL_AUTOWAH_MIN_PEAK_GAIN` (0.00003). -/
def AL_AUTOWAH_MIN_PEAK_GAIN [LinearOrderedField α] : α := 3/100000

/-- `ALautowah_setParamf`: for a recognized identifier, stores the value when
it lies inside the documented `[min, max]` and signals `AL_INVALID_VALUE`
without mutating otherwise; signals `AL_INVALID_ENUM` for anything else.
Returns the (possibly updated) property bag and the signalled error. -/
def ALautowah_setParamf (props : AutowahProps α) (param : Nat) (val : α) :
    AutowahProps α × Option ALerror :=
  if param = AL_AUTOWAH_ATTACK_TIME then
    if AL_AUTOWAH_MIN_ATTACK_TIME ≤ val ∧ val ≤ AL_AUTOWAH_MAX_ATTACK_TIME then
      ({ props with AttackTime := val }, none)
    else (props, some .InvalidValue)
  else if param = AL_AUTOWAH_RELEASE_TIME then
    if AL_AUTOWAH_MIN_RELEASE_TIME ≤ val ∧ val ≤ AL_AUTOWAH_MAX_RELEASE_TIME then
      ({ props with ReleaseTime := val }, none)
    else (props, some .InvalidValue)
  else if param = AL_AUTOWAH_RESONANCE then
    if AL_AUTOWAH_MIN_RESONANCE ≤ val ∧ val ≤ AL_AUTOWAH_MAX_RESONANCE then
      ({ props with Resonance := val }, none)
    else (props, some .InvalidValue)
  else if param = AL_AUTOWAH_PEAK_GAIN then
    if AL_AUTOWAH_MIN_PEAK_GAIN ≤ val ∧ val ≤ AL_AUTOWAH_MAX_PEAK_GAIN then
      ({ props with PeakGain := val }, none)
    else (props, some .InvalidValue)
  else (props, some .InvalidEnum)

/-- `ALautowah_setParamfv`: forwards the first vector element to
`ALautowah_setParamf`. -/
def ALautowah_setParamfv (props : AutowahProps α) (param : Nat)
    (vals : Nat → α) : AutowahProps α × Option ALerror :=
  ALautowah_setParamf props param (vals 0)

/-- `ALautowah_setParami`: unconditionally signals `AL_INVALID_ENUM` and
touches nothing. -/
def ALautowah_setParami (props : AutowahProps α) (_param : Nat) (_val : Int) :
    AutowahProps α × Option ALerror :=
  (props, some .InvalidEnum)

/-- `ALautowah_setParamiv`: unconditionally signals `AL_INVALID_ENUM` and
touches nothing. -/
def ALautowah_setParamiv (props : AutowahProps α) (_param : Nat)
    (_vals : Nat → Int) : AutowahProps α × Option ALerror :=
  (props, some .InvalidEnum)

/-- `ALautowah_getParamf`: for a recognized identifier writes the stored value
(modelled as `some` of the written value) and signals nothing; for anything
else writes nothing and signals `AL_INVALID_ENUM`. -/
def ALautowah_getParamf (props : AutowahProps α) (param : Nat) :
    Option α × Option ALerror :=
  if param = AL_AUTOWAH_ATTACK_TIME then (some props.AttackTime, none)
  else if param = AL_AUTOWAH_RELEASE_TIME then (some props.ReleaseTime, none)
  else if param = AL_AUTOWAH_RESONANCE then (some props.Resonance, none)
  else if param = AL_AUTOWAH_PEAK_GAIN then (some props.PeakGain, none)
  else (none, some .InvalidEnum)

/-- `ALautowah_getParamfv`: forwards to `ALautowah_getParamf` (writes only the
first vector element). -/
def ALautowah_getParamfv (props : AutowahProps α) (param : Nat) :
    Option α × Option ALerror :=
  ALautowah_getParamf props param

/-- `ALautowah_getParami`: unconditionally signals `AL_INVALID_ENUM`, writes
nothing. -/
def ALautowah_getParami (_props : AutowahProps α) (_param : Nat) :
    Option Int × Option ALerror :=
  (none, some .InvalidEnum)

/-- `ALautowah_getParamiv`: unconditionally signals `AL_INVALID_ENUM`, writes
nothing. -/
def ALautowah_getParamiv (_props : AutowahProps α) (_param : Nat) :
    Option Int × Option ALerror :=
  (none, some .InvalidEnum)

/-- `AutowahStateFactory::getDefaultProps`; the default constants come from
the EFX headers (not under src/): attack 0.06s, release 0.06s, resonance
1000, peak gain 11.22. -/
def getDefaultProps [LinearOrderedField α] : AutowahProps α :=
  { AttackTime := 3/50
    ReleaseTime := 3/50
    Resonance := 1000
    PeakGain := 1122/100 }

/-- A concrete rational operations record used to evaluate the algorithm on
concrete inputs (the transcendental slots are arbitrary total functions;
the theorems below hold for every `Ops`). -/
def qOps : Ops ℚ :=
  { exp := fun x => x
    log10 := fun x => x
    sqrt := fun x => x
    cos := fun x => x
    sin := fun x => x
    tau := 6 }

/-- A concrete rational processor state used to evaluate the algorithm on
concrete inputs. -/
def qState : ALautowahState ℚ :=
  { mAttackRate := 1/2
    mReleaseRate := 1/3
    mResonanceGain := 2
    mPeakGain := 1
    mFreqMinNorm := 1/100
    mBandwidthNorm := 1/10
    mEnvDelay := 0
    mEnv := fun _ => ⟨1, 0⟩
    mChans := fun _ => ⟨0, 0, fun _ => 0, fun _ => 0⟩
    mBufferOut := fun _ => 0 }

/-- The real-valued operations record: the mathematical functions the C
library functions `expf`, `log10f`, `sqrtf`, `cosf`, `sinf` and the constant
`al::MathDefs<float>::Tau()` compute. -/
noncomputable def realOps : Ops ℝ :=
  { exp := Real.exp
    log10 := fun x => Real.log x / Real.log 10
    sqrt := Real.sqrt
    cos := Real.cos
    sin := Real.sin
    tau := 2 * Real.pi }

lemma chanApply_mChans (n : Nat) (res : α) (sIn : Nat → Nat → α) (c : Nat)
    (st : ALautowahState α × (Nat → Nat → α)) (k : Nat) :
    (chanApply n res sIn c st).1.mChans k =
      if k = c then
        { st.1.mChans c with
          z1 := (filterState res st.1.mEnv (sIn c)
            ((st.1.mChans c).z1, (st.1.mChans c).z2) n).1
          z2 := (filterState res st.1.mEnv (sIn c)
            ((st.1.mChans c).z1, (st.1.mChans c).z2) n).2
          CurrentGains := (st.1.mChans c).TargetGains }
      else st.1.mChans k := rfl

lemma chanApply_mChans_self (n : Nat) (res : α) (sIn : Nat → Nat → α)
    (c : Nat) (st : ALautowahState α × (Nat → Nat → α)) :
    (chanApply n res sIn c st).1.mChans c =
      { st.1.mChans c with
        z1 := (filterState res st.1.mEnv (sIn c)
          ((st.1.mChans c).z1, (st.1.mChans c).z2) n).1
        z2 := (filterState res st.1.mEnv (sIn c)
          ((st.1.mChans c).z1, (st.1.mChans c).z2) n).2
        CurrentGains := (st.1.mChans c).TargetGains } := by
  rw [chanApply_mChans, if_pos rfl]

lemma chanApply_mBufferOut (n : Nat) (res : α) (sIn : Nat → Nat → α)
    (c : Nat) (st : ALautowahState α × (Nat → Nat → α)) (i : Nat) :
    (chanApply n res sIn c st).1.mBufferOut i =
      if i < n then
        filterOut res st.1.mEnv (sIn c)
          ((st.1.mChans c).z1, (st.1.mChans c).z2) i
      else st.1.mBufferOut i := rfl

lemma processLoop_fields (n : Nat) (res : α) (sIn : Nat → Nat → α) (m : Nat)
    (st : ALautowahState α × (Nat → Nat → α)) :
    (processLoop n res sIn m st).1.mAttackRate = st.1.mAttackRate ∧
    (processLoop n res sIn m st).1.mReleaseRate = st.1.mReleaseRate ∧
    (processLoop n res sIn m st).1.mResonanceGain = st.1.mResonanceGain ∧
    (processLoop n res sIn m st).1.mPeakGain = st.1.mPeakGain ∧
    (processLoop n res sIn m st).1.mFreqMinNorm = st.1.mFreqMinNorm ∧
    (processLoop n res sIn m st).1.mBandwidthNorm = st.1.mBandwidthNorm ∧
    (processLoop n res sIn m st).1.mEnvDelay = st.1.mEnvDelay ∧
    (processLoop n res sIn m st).1.mEnv = st.1.mEnv := by
  induction m with
  | zero => exact ⟨rfl, rfl, rfl, rfl, rfl, rfl, rfl, rfl⟩
  | succ m ih =>
    simpa only [processLoop, chanApply] using ih

lemma processLoop_untouched (n : Nat) (res : α) (sIn : Nat → Nat → α)
    (m : Nat) (st : ALautowahState α × (Nat → Nat → α)) (k : Nat)
    (hk : m ≤ k) :
    (processLoop n res sIn m st).1.mChans k = st.1.mChans k := by
  induction m with
  | zero => rfl
  | succ m ih =>
    have hk' : m ≤ k := Nat.le_of_succ_le hk
    have hne : k ≠ m := fun h => absurd (h ▸ hk) (Nat.not_succ_le_self m)
    calc (processLoop n res sIn (m + 1) st).1.mChans k
        = (processLoop n res sIn m st).1.mChans k := by
          rw [processLoop, chanApply_mChans, if_neg hne]
      _ = st.1.mChans k := ih hk'

lemma processLoop_targetGains (n : Nat) (res : α) (sIn : Nat → Nat → α)
    (m : Nat) (st : ALautowahState α × (Nat → Nat → α)) (k : Nat) :
    ((processLoop n res sIn m st).1.mChans k).TargetGains =
      (st.1.mChans k).TargetGains := by
  induction m with
  | zero => rfl
  | succ m ih =>
    rw [processLoop, chanApply_mChans]
    by_cases hk : k = m
    · subst hk; rw [if_pos rfl]; exact ih
    · rw [if_neg hk]; exact ih

lemma processLoop_peel (n : Nat) (res : α) (sIn : Nat → Nat → α)
    (m : Nat) (st : ALautowahState α × (Nat → Nat → α)) (c : Nat)
    (hc : c < m) :
    (processLoop n res sIn m st).1.mChans c =
      (chanApply n res sIn c (processLoop n res sIn c st)).1.mChans c := by
  induction m with
  | zero => exact absurd hc (Nat.not_lt_zero c)
  | succ m ih =>
    by_cases hcm : c = m
    · subst hcm; rfl
    · have hc' : c < m := Nat.lt_of_le_of_ne (Nat.le_of_lt_succ hc) hcm
      rw [processLoop, chanApply_mChans, if_neg hcm]
      exact ih hc'

lemma chanApply_snd (n : Nat) (res : α) (sIn : Nat → Nat → α) (c : Nat)
    (st : ALautowahState α × (Nat → Nat → α)) :
    (chanApply n res sIn c st).2 =
      (MixSamples (fun i => if i < n then
          filterOut res st.1.mEnv (sIn c)
            ((st.1.mChans c).z1, (st.1.mChans c).z2) i
        else st.1.mBufferOut i) n st.2
        (st.1.mChans c).CurrentGains (st.1.mChans c).TargetGains).1 := rfl

lemma MixSamples_zero_src (src : Nat → α) (n : Nat) (out : Nat → Nat → α)
    (cur tgt : Nat → α) (h : ∀ i, i < n → src i = 0) :
    (MixSamples src n out cur tgt).1 = out := by
  funext j i
  show (if i < n then out j i + _ * src i else out j i) = out j i
  by_cases hi : i < n
  · rw [if_pos hi, h i hi, mul_zero, add_zero]
  · rw [if_neg hi]

lemma biquadStep_zero (res : α) (e : EnvEntry α) :
    biquadStep res e 0 0 0 = (0, 0, 0) := by
  simp [biquadStep]

lemma filterState_zero (res : α) (env : Nat → EnvEntry α) (input : Nat → α)
    (hin : ∀ i, input i = 0) (i : Nat) :
    filterState res env input (0, 0) i = (0, 0) := by
  induction i with
  | zero => rfl
  | succ i ih =>
    show ((biquadStep res (env i) (filterState res env input (0, 0) i).1
        (filterState res env input (0, 0) i).2 (input i)).2.1,
      (biquadStep res (env i) (filterState res env input (0, 0) i).1
        (filterState res env input (0, 0) i).2 (input i)).2.2) = ((0:α), 0)
    rw [ih, hin i]
    simp [biquadStep_zero]

lemma filterOut_zero (res : α) (env : Nat → EnvEntry α) (input : Nat → α)
    (hin : ∀ i, input i = 0) (i : Nat) :
    filterOut res env input (0, 0) i = 0 := by
  show (biquadStep res (env i) (filterState res env input (0, 0) i).1
    (filterState res env input (0, 0) i).2 (input i)).1 = 0
  rw [filterState_zero res env input hin i, hin i]
  rw [show ((((0:α), (0:α)).1 : α)) = (0:α) from rfl,
    show ((((0:α), (0:α)).2 : α)) = (0:α) from rfl, biquadStep_zero]

lemma processLoop_zero_input (n : Nat) (res : α) (m : Nat)
    (st : ALautowahState α × (Nat → Nat → α))
    (hz : ∀ k, (st.1.mChans k).z1 = 0 ∧ (st.1.mChans k).z2 = 0) :
    (processLoop n res (fun _ _ => (0:α)) m st).2 = st.2 ∧
    (∀ k, ((processLoop n res (fun _ _ => (0:α)) m st).1.mChans k).z1 = 0
      ∧ ((processLoop n res (fun _ _ => (0:α)) m st).1.mChans k).z2 = 0) := by
  induction m with
  | zero => exact ⟨rfl, hz⟩
  | succ m ih =>
    obtain ⟨hout, hzk⟩ := ih
    have hsrc : ∀ i, i < n →
        (fun i => if i < n then
          filterOut res (processLoop n res (fun _ _ => (0:α)) m st).1.mEnv
            ((fun _ _ => (0:α)) m)
            (((processLoop n res (fun _ _ => (0:α)) m st).1.mChans m).z1,
             ((processLoop n res (fun _ _ => (0:α)) m st).1.mChans m).z2) i
        else (processLoop n res (fun _ _ => (0:α)) m st).1.mBufferOut i) i
          = 0 := by
      intro i hi
      show (if i < n then _ else _) = (0:α)
      rw [if_pos hi, (hzk m).1, (hzk m).2]
      exact filterOut_zero res _ _ (fun _ => rfl) i
    constructor
    · show (chanApply n res (fun _ _ => (0:α)) m
        (processLoop n res (fun _ _ => (0:α)) m st)).2 = st.2
      rw [chanApply_snd, MixSamples_zero_src _ _ _ _ _ hsrc, hout]
    · intro k
      show (((chanApply n res (fun _ _ => (0:α)) m
          (processLoop n res (fun _ _ => (0:α)) m st)).1.mChans k).z1 = 0)
        ∧ (((chanApply n res (fun _ _ => (0:α)) m
          (processLoop n res (fun _ _ => (0:α)) m st)).1.mChans k).z2 = 0)
      rw [chanApply_mChans]
      by_cases hk : k = m
      · rw [if_pos hk]
        refine ⟨?_, ?_⟩
        · show (filterState res _ _
            (((processLoop n res (fun _ _ => (0:α)) m st).1.mChans m).z1,
             ((processLoop n res (fun _ _ => (0:α)) m st).1.mChans m).z2) n).1
              = 0
          rw [(hzk m).1, (hzk m).2,
            filterState_zero res _ _ (fun _ => rfl) n]
        · show (filterState res _ _
            (((processLoop n res (fun _ _ => (0:α)) m st).1.mChans m).z1,
             ((processLoop n res (fun _ _ => (0:α)) m st).1.mChans m).z2) n).2
              = 0
          rw [(hzk m).1, (hzk m).2,
            filterState_zero res _ _ (fun _ => rfl) n]
      · rw [if_neg hk]
        exact hzk k

/-- Claim C3: `update` sets the derived coefficients to exactly
`attackRate = exp(-1/(AttackTime·sampleRate))`,
`releaseRate = exp(-1/(clamp(ReleaseTime, 0.001, 1.0)·sampleRate))` (the
release time clamped, the attack time not),
`resonanceGain = sqrt(log10(Resonance)·10/3)`,
`peakGain = 1 - log10(PeakGain / MAX_PEAK_GAIN)`,
`freqMinNorm = 20/sampleRate` and `bandwidthNorm = (2500 - 20)/sampleRate`,
for every parameter bag and device sample rate. -/
theorem update_derived_coefficients (ops : Ops α) (props : AutowahProps α)
    (frequency : α) (wetNumChannels : Nat) (panGains : Nat → Nat → α)
    (s : ALautowahState α) :
    (update ops props frequency wetNumChannels panGains s).mAttackRate
      = ops.exp (-1 / (props.AttackTime * frequency)) ∧
    (update ops props frequency wetNumChannels panGains s).mReleaseRate
      = ops.exp (-1 / (min 1 (max (1/1000) props.ReleaseTime) * frequency)) ∧
    (update ops props frequency wetNumChannels panGains s).mResonanceGain
      = ops.sqrt (ops.log10 props.Resonance * 10 / 3) ∧
    (update ops props frequency wetNumChannels panGains s).mPeakGain
      = 1 - ops.log10 (props.PeakGain / AL_AUTOWAH_MAX_PEAK_GAIN) ∧
    (update ops props frequency wetNumChannels panGains s).mFreqMinNorm
      = 20 / frequency ∧
    (update ops props frequency wetNumChannels panGains s).mBandwidthNorm
      = (2500 - 20) / frequency :=
  ⟨rfl, rfl, rfl, rfl, rfl, rfl⟩

/-- Claim C7: `update` leaves every channel's filter memory `z1, z2` and
`CurrentGains` exactly as they were, while recomputing the six derived
coefficients and the target gains (the latter for the wet channels, from the
pan-gain computation). -/
theorem update_frame (ops : Ops α) (props : AutowahProps α)
    (frequency : α) (wetNumChannels : Nat) (panGains : Nat → Nat → α)
    (s : ALautowahState α) :
    (∀ c, ((update ops props frequency wetNumChannels panGains s).mChans c).z1
        = (s.mChans c).z1
      ∧ ((update ops props frequency wetNumChannels panGains s).mChans c).z2
        = (s.mChans c).z2
      ∧ ((update ops props frequency wetNumChannels panGains s).mChans c).CurrentGains
        = (s.mChans c).CurrentGains) ∧
    (update ops props frequency wetNumChannels panGains s).mAttackRate
      = ops.exp (-1 / (props.AttackTime * frequency)) ∧
    (update ops props frequency wetNumChannels panGains s).mReleaseRate
      = ops.exp (-1 / (min 1 (max (1/1000) props.ReleaseTime) * frequency)) ∧
    (update ops props frequency wetNumChannels panGains s).mResonanceGain
      = ops.sqrt (ops.log10 props.Resonance * 10 / 3) ∧
    (update ops props frequency wetNumChannels panGains s).mPeakGain
      = 1 - ops.log10 (props.PeakGain / AL_AUTOWAH_MAX_PEAK_GAIN) ∧
    (update ops props frequency wetNumChannels panGains s).mFreqMinNorm
      = 20 / frequency ∧
    (update ops props frequency wetNumChannels panGains s).mBandwidthNorm
      = (2500 - 20) / frequency ∧
    (∀ c, ((update ops props frequency wetNumChannels panGains s).mChans c).TargetGains
        = if c < wetNumChannels then panGains c else (s.mChans c).TargetGains) := by
  have hm : ∀ k, (update ops props frequency wetNumChannels panGains s).mChans k
      = if k < wetNumChannels then { s.mChans k with TargetGains := panGains k }
        else s.mChans k := fun _ => rfl
  refine ⟨?_, rfl, rfl, rfl, rfl, rfl, rfl, ?_⟩
  · intro c
    by_cases hc : c < wetNumChannels <;> simp [hm, hc]
  · intro c
    by_cases hc : c < wetNumChannels <;> simp [hm, hc]

/-- Claim C1: for a block of size `n ≥ 1` the envelope pass starts from the
stored envelope delay, computes for each sample `sample = peakGain·|input[0][i]|`,
smooths with `a = attackRate` when the sample strictly exceeds the current
delay and `releaseRate` otherwise via
`envelopeDelay := envelopeDelay·a + sample·(1−a)`, stores the final value back
as the persistent delay, and reads only channel 0 of the input. -/
theorem process_envelope_pass (ops : Ops α) (n : Nat) (hn : 1 ≤ n)
    (samplesIn : Nat → Nat → α) (numInput : Nat)
    (samplesOut : Nat → Nat → α) (s : ALautowahState α) :
    envDelayAfter s.mAttackRate s.mReleaseRate s.mPeakGain (samplesIn 0)
        s.mEnvDelay 0 = s.mEnvDelay ∧
    (∀ i, i < n →
      envDelayAfter s.mAttackRate s.mReleaseRate s.mPeakGain (samplesIn 0)
          s.mEnvDelay (i + 1)
        = envDelayAfter s.mAttackRate s.mReleaseRate s.mPeakGain (samplesIn 0)
              s.mEnvDelay i
            * (if s.mPeakGain * |samplesIn 0 i|
                  > envDelayAfter s.mAttackRate s.mReleaseRate s.mPeakGain
                      (samplesIn 0) s.mEnvDelay i
               then s.mAttackRate else s.mReleaseRate)
          + s.mPeakGain * |samplesIn 0 i|
            * (1 - (if s.mPeakGain * |samplesIn 0 i|
                  > envDelayAfter s.mAttackRate s.mReleaseRate s.mPeakGain
                      (samplesIn 0) s.mEnvDelay i
               then s.mAttackRate else s.mReleaseRate))) ∧
    (process ops n samplesIn numInput samplesOut s).1.mEnvDelay
      = envDelayAfter s.mAttackRate s.mReleaseRate s.mPeakGain (samplesIn 0)
          s.mEnvDelay n ∧
    (∀ samplesIn2 : Nat → Nat → α, samplesIn2 0 = samplesIn 0 →
      (process ops n samplesIn2 numInput samplesOut s).1.mEnvDelay
        = (process ops n samplesIn numInput samplesOut s).1.mEnvDelay) := by
  have hstore : ∀ (sIn : Nat → Nat → α),
      (process ops n sIn numInput samplesOut s).1.mEnvDelay
        = envDelayAfter s.mAttackRate s.mReleaseRate s.mPeakGain (sIn 0)
            s.mEnvDelay n := by
    intro sIn
    exact (processLoop_fields n s.mResonanceGain sIn numInput
      (envPassed ops n sIn s, samplesOut)).2.2.2.2.2.2.1
  refine ⟨rfl, ?_, hstore samplesIn, ?_⟩
  · intro i _
    show envelopeStep s.mAttackRate s.mReleaseRate s.mPeakGain _ _ = _
    simp only [envelopeStep, lerp]
    by_cases h : s.mPeakGain * |samplesIn 0 i|
        > envDelayAfter s.mAttackRate s.mReleaseRate s.mPeakGain (samplesIn 0)
            s.mEnvDelay i
    · rw [if_pos h]; ring
    · rw [if_neg h]; ring
  · intro samplesIn2 h12
    rw [hstore samplesIn, hstore samplesIn2, h12]

/-- Witness: one block of one constant sample through the envelope pass, at
attack rate 1/2 and peak gain 1, moves the stored envelope delay from 0 to
1/2. -/
theorem process_envelope_pass_witness :
    (process qOps 1 (fun _ _ => (1:ℚ)) 1 (fun _ _ => 0) qState).1.mEnvDelay
      = 1/2 := by
  have h := (process_envelope_pass qOps 1 (by norm_num) (fun _ _ => (1:ℚ)) 1
    (fun _ _ => 0) qState).2.2.1
  rw [h]
  norm_num [envDelayAfter, envelopeStep, lerp, qState]

/-- Claim C2: for every input channel `c < numInput` the channel's output
samples come from the peaking biquad with per-sample coefficients
`b0 = 1 + alpha·resonanceGain`, `b1 = -2·cos_w0`, `b2 = 1 - alpha·resonanceGain`,
`a0 = 1 + alpha/resonanceGain`, `a1 = -2·cos_w0`, `a2 = 1 - alpha/resonanceGain`
applied in direct-form transposed
(`output = input·(b0/a0) + z1`, `z1 := input·(b1/a0) - output·(a1/a0) + z2`,
`z2 := input·(b2/a0) - output·(a2/a0)`), with `z1, z2` loaded from the
channel's persistent filter memory before the sample loop and the final
values stored back after it. -/
theorem process_channel_filter (ops : Ops α) (n : Nat)
    (samplesIn : Nat → Nat → α) (numInput : Nat)
    (samplesOut : Nat → Nat → α) (s : ALautowahState α)
    (c : Nat) (hc : c < numInput) :
    (∀ (e : EnvEntry α) (z1 z2 input : α),
      (biquadStep s.mResonanceGain e z1 z2 input).1
        = input * ((1 + e.alpha * s.mResonanceGain)
            / (1 + e.alpha / s.mResonanceGain)) + z1
      ∧ (biquadStep s.mResonanceGain e z1 z2 input).2.1
        = input * ((-2 * e.cos_w0) / (1 + e.alpha / s.mResonanceGain))
          - (biquadStep s.mResonanceGain e z1 z2 input).1
            * ((-2 * e.cos_w0) / (1 + e.alpha / s.mResonanceGain)) + z2
      ∧ (biquadStep s.mResonanceGain e z1 z2 input).2.2
        = input * ((1 - e.alpha * s.mResonanceGain)
            / (1 + e.alpha / s.mResonanceGain))
          - (biquadStep s.mResonanceGain e z1 z2 input).1
            * ((1 - e.alpha / s.mResonanceGain)
                / (1 + e.alpha / s.mResonanceGain))) ∧
    filterState s.mResonanceGain (envPassed ops n samplesIn s).mEnv
        (samplesIn c) ((s.mChans c).z1, (s.mChans c).z2) 0
      = ((s.mChans c).z1, (s.mChans c).z2) ∧
    (∀ i, filterState s.mResonanceGain (envPassed ops n samplesIn s).mEnv
        (samplesIn c) ((s.mChans c).z1, (s.mChans c).z2) (i + 1)
      = ((biquadStep s.mResonanceGain ((envPassed ops n samplesIn s).mEnv i)
          (filterState s.mResonanceGain (envPassed ops n samplesIn s).mEnv
            (samplesIn c) ((s.mChans c).z1, (s.mChans c).z2) i).1
          (filterState s.mResonanceGain (envPassed ops n samplesIn s).mEnv
            (samplesIn c) ((s.mChans c).z1, (s.mChans c).z2) i).2
          (samplesIn c i)).2.1,
         (biquadStep s.mResonanceGain ((envPassed ops n samplesIn s).mEnv i)
          (filterState s.mResonanceGain (envPassed ops n samplesIn s).mEnv
            (samplesIn c) ((s.mChans c).z1, (s.mChans c).z2) i).1
          (filterState s.mResonanceGain (envPassed ops n samplesIn s).mEnv
            (samplesIn c) ((s.mChans c).z1, (s.mChans c).z2) i).2
          (samplesIn c i)).2.2)) ∧
    ((process ops n samplesIn numInput samplesOut s).1.mChans c).z1
      = (filterState s.mResonanceGain (envPassed ops n samplesIn s).mEnv
          (samplesIn c) ((s.mChans c).z1, (s.mChans c).z2) n).1 ∧
    ((process ops n samplesIn numInput samplesOut s).1.mChans c).z2
      = (filterState s.mResonanceGain (envPassed ops n samplesIn s).mEnv
          (samplesIn c) ((s.mChans c).z1, (s.mChans c).z2) n).2 ∧
    (∀ i, i < n →
      (processLoop n s.mResonanceGain samplesIn (c + 1)
          (envPassed ops n samplesIn s, samplesOut)).1.mBufferOut i
        = (biquadStep s.mResonanceGain ((envPassed ops n samplesIn s).mEnv i)
            (filterState s.mResonanceGain (envPassed ops n samplesIn s).mEnv
              (samplesIn c) ((s.mChans c).z1, (s.mChans c).z2) i).1
            (filterState s.mResonanceGain (envPassed ops n samplesIn s).mEnv
              (samplesIn c) ((s.mChans c).z1, (s.mChans c).z2) i).2
            (samplesIn c i)).1) := by
  have henv : (processLoop n s.mResonanceGain samplesIn c
      (envPassed ops n samplesIn s, samplesOut)).1.mEnv
      = (envPassed ops n samplesIn s).mEnv :=
    (processLoop_fields n s.mResonanceGain samplesIn c
      (envPassed ops n samplesIn s, samplesOut)).2.2.2.2.2.2.2
  have hch : (processLoop n s.mResonanceGain samplesIn c
      (envPassed ops n samplesIn s, samplesOut)).1.mChans c
      = s.mChans c :=
    processLoop_untouched n s.mResonanceGain samplesIn c
      (envPassed ops n samplesIn s, samplesOut) c le_rfl
  have hpeel := processLoop_peel n s.mResonanceGain samplesIn numInput
    (envPassed ops n samplesIn s, samplesOut) c hc
  refine ⟨fun e z1 z2 input => ⟨rfl, rfl, rfl⟩, rfl, fun i => rfl, ?_, ?_, ?_⟩
  · show ((processLoop n s.mResonanceGain samplesIn numInput
      (envPassed ops n samplesIn s, samplesOut)).1.mChans c).z1 = _
    rw [hpeel, chanApply_mChans_self]
    simp only [henv, hch]
  · show ((processLoop n s.mResonanceGain samplesIn numInput
      (envPassed ops n samplesIn s, samplesOut)).1.mChans c).z2 = _
    rw [hpeel, chanApply_mChans_self]
    simp only [henv, hch]
  · intro i hi
    show (chanApply n s.mResonanceGain samplesIn c
      (processLoop n s.mResonanceGain samplesIn c
        (envPassed ops n samplesIn s, samplesOut))).1.mBufferOut i = _
    rw [chanApply_mBufferOut, if_pos hi, henv, hch]
    rfl

/-- Witness: the channel-filter theorem applied to channel 0 of a one-sample,
one-channel block over the rationals. -/
theorem process_channel_filter_witness :
    ((process qOps 1 (fun _ _ => (1:ℚ)) 1 (fun _ _ => 0) qState).1.mChans 0).z1
      = (filterState qState.mResonanceGain
          (envPassed qOps 1 (fun _ _ => (1:ℚ)) qState).mEnv
          ((fun _ _ => (1:ℚ)) 0)
          ((qState.mChans 0).z1, (qState.mChans 0).z2) 1).1 :=
  (process_channel_filter qOps 1 (fun _ _ => (1:ℚ)) 1 (fun _ _ => 0) qState 0
    (by norm_num)).2.2.2.1

/-- Claim C10: `process` leaves the six derived coefficients and every
channel's target gains unchanged; channels at or beyond `numInput` keep their
filter memory and current gains, and envelope scratch entries at or beyond
the block size keep their values — only the envelope delay, the scratch
entries below the block size, the scratch output buffer, and the first
`numInput` channels' filter memory and current gains are written. -/
theorem process_frame (ops : Ops α) (n : Nat) (samplesIn : Nat → Nat → α)
    (numInput : Nat) (samplesOut : Nat → Nat → α) (s : ALautowahState α) :
    (process ops n samplesIn numInput samplesOut s).1.mAttackRate
      = s.mAttackRate ∧
    (process ops n samplesIn numInput samplesOut s).1.mReleaseRate
      = s.mReleaseRate ∧
    (process ops n samplesIn numInput samplesOut s).1.mResonanceGain
      = s.mResonanceGain ∧
    (process ops n samplesIn numInput samplesOut s).1.mPeakGain
      = s.mPeakGain ∧
    (process ops n samplesIn numInput samplesOut s).1.mFreqMinNorm
      = s.mFreqMinNorm ∧
    (process ops n samplesIn numInput samplesOut s).1.mBandwidthNorm
      = s.mBandwidthNorm ∧
    (∀ c, ((process ops n samplesIn numInput samplesOut s).1.mChans c).TargetGains
      = (s.mChans c).TargetGains) ∧
    (∀ c, numInput ≤ c →
      (process ops n samplesIn numInput samplesOut s).1.mChans c = s.mChans c) ∧
    (∀ i, n ≤ i →
      (process ops n samplesIn numInput samplesOut s).1.mEnv i = s.mEnv i) := by
  have hf := processLoop_fields n s.mResonanceGain samplesIn numInput
    (envPassed ops n samplesIn s, samplesOut)
  refine ⟨hf.1, hf.2.1, hf.2.2.1, hf.2.2.2.1, hf.2.2.2.2.1, hf.2.2.2.2.2.1,
    ?_, ?_, ?_⟩
  · intro c
    exact processLoop_targetGains n s.mResonanceGain samplesIn numInput
      (envPassed ops n samplesIn s, samplesOut) c
  · intro c hcn
    exact processLoop_untouched n s.mResonanceGain samplesIn numInput
      (envPassed ops n samplesIn s, samplesOut) c hcn
  · intro i hni
    have h1 : (process ops n samplesIn numInput samplesOut s).1.mEnv i
        = (envPassed ops n samplesIn s).mEnv i := by
      rw [show (process ops n samplesIn numInput samplesOut s).1.mEnv
        = (envPassed ops n samplesIn s).mEnv from hf.2.2.2.2.2.2.2]
    rw [h1]
    show (if i < n then _ else s.mEnv i) = s.mEnv i
    rw [if_neg (Nat.not_lt.mpr hni)]

/-- Witness: processing one channel of a one-sample block leaves channel 2
(beyond the input count) untouched. -/
theorem process_frame_witness :
    (process qOps 1 (fun _ _ => (1:ℚ)) 1 (fun _ _ => 0) qState).1.mChans 2
      = qState.mChans 2 :=
  (process_frame qOps 1 (fun _ _ => (1:ℚ)) 1 (fun _ _ => 0)
    qState).2.2.2.2.2.2.2.1 2 (by norm_num)

/-- Claim C4: `deviceUpdate` always succeeds; afterwards every channel's
filter memory, every channel's current gains, and the envelope delay are
exactly zero, and a following `process` call on all-zero input adds nothing
to the output. -/
theorem deviceUpdate_resets (ops : Ops α) (n numInput : Nat)
    (samplesOut : Nat → Nat → α) (s : ALautowahState α) :
    (deviceUpdate s).1 = true ∧
    (∀ c, ((deviceUpdate s).2.mChans c).z1 = 0
      ∧ ((deviceUpdate s).2.mChans c).z2 = 0
      ∧ (∀ j, ((deviceUpdate s).2.mChans c).CurrentGains j = 0)) ∧
    (deviceUpdate s).2.mEnvDelay = 0 ∧
    (process ops n (fun _ _ => (0:α)) numInput samplesOut
      (deviceUpdate s).2).2 = samplesOut := by
  refine ⟨rfl, fun c => ⟨rfl, rfl, fun j => rfl⟩, rfl, ?_⟩
  show (processLoop n (deviceUpdate s).2.mResonanceGain (fun _ _ => (0:α))
    numInput (envPassed ops n (fun _ _ => (0:α)) (deviceUpdate s).2,
      samplesOut)).2 = samplesOut
  exact (processLoop_zero_input n (deviceUpdate s).2.mResonanceGain numInput
    (envPassed ops n (fun _ _ => (0:α)) (deviceUpdate s).2, samplesOut)
    (fun k => ⟨rfl, rfl⟩)).1

/-- Claim C6: for every envelope value `e ≥ 0` (indeed for every argument)
the per-sample angular frequency is
`w0 = min(bandwidthNorm·e + freqMinNorm, 0.46)·2π ≤ 0.46·2π`, hence
`|cos w0| ≤ 1`; and every envelope scratch entry written by a `process` call
has `|cos_w0| ≤ 1`. -/
theorem w0_bounded (bandwidth freq_min e : ℝ) (he : 0 ≤ e) :
    w0val realOps bandwidth freq_min e
      = min (bandwidth * e + freq_min) (23/50) * (2 * Real.pi) ∧
    w0val realOps bandwidth freq_min e ≤ 23/50 * (2 * Real.pi) ∧
    |Real.cos (w0val realOps bandwidth freq_min e)| ≤ 1 ∧
    (∀ (n numInput : Nat) (samplesIn samplesOut : Nat → Nat → ℝ)
        (s : ALautowahState ℝ) (i : Nat), i < n →
      |((process realOps n samplesIn numInput samplesOut s).1.mEnv i).cos_w0|
        ≤ 1) := by
  have hb : w0val realOps bandwidth freq_min e ≤ 23/50 * (2 * Real.pi) := by
    have h1 : minf (bandwidth * e + freq_min) (23/50) ≤ (23/50 : ℝ) :=
      min_le_right _ _
    have h2 : (0:ℝ) ≤ 2 * Real.pi := by positivity
    calc w0val realOps bandwidth freq_min e
        = minf (bandwidth * e + freq_min) (23/50) * (2 * Real.pi) := rfl
      _ ≤ 23/50 * (2 * Real.pi) := mul_le_mul_of_nonneg_right h1 h2
  refine ⟨rfl, hb, Real.abs_cos_le_one _, ?_⟩
  intro n numInput samplesIn samplesOut s i hi
  have hm : (process realOps n samplesIn numInput samplesOut s).1.mEnv
      = (envPassed realOps n samplesIn s).mEnv :=
    (processLoop_fields n s.mResonanceGain samplesIn numInput
      (envPassed realOps n samplesIn s, samplesOut)).2.2.2.2.2.2.2
  rw [hm]
  show |(if i < n then
      envEntryAt realOps s.mBandwidthNorm s.mFreqMinNorm _
    else s.mEnv i).cos_w0| ≤ 1
  rw [if_pos hi]
  exact Real.abs_cos_le_one _

/-- Witness: the `w0` ceiling and the cosine bound at concrete zero inputs. -/
theorem w0_bounded_witness :
    |Real.cos (w0val realOps 0 0 0)| ≤ 1 :=
  (w0_bounded 0 0 0 le_rfl).2.2.1

/-- Claim C8: on a constant input of amplitude `A ≥ 0` with
`peakGain·A` above the stored envelope delay and attack rate in `(0,1)`, the
envelope-delay sequence rises strictly, bounded above by `peakGain·A`; when
`peakGain·|input|` is below the delay and the release rate is in `(0,1)`, it
decays strictly. -/
theorem envelope_monotone (attack release peak e A B : α) :
    ((0 < attack → attack < 1 → 0 ≤ A → e < peak * A →
      (∀ i, envDelayAfter attack release peak (fun _ => A) e i
          < envDelayAfter attack release peak (fun _ => A) e (i + 1))
      ∧ (∀ i, envDelayAfter attack release peak (fun _ => A) e i
          < peak * A))
    ∧ (0 < release → release < 1 → peak * |B| < e →
      (∀ i, envDelayAfter attack release peak (fun _ => B) e (i + 1)
          < envDelayAfter attack release peak (fun _ => B) e i))) := by
  constructor
  · intro ha1 ha2 hA hlt
    have habs : peak * |A| = peak * A := by rw [abs_of_nonneg hA]
    have aux : ∀ i,
        envDelayAfter attack release peak (fun _ => A) e i < peak * A := by
      intro i
      induction i with
      | zero => exact hlt
      | succ i ih =>
        show envelopeStep attack release peak
          (envDelayAfter attack release peak (fun _ => A) e i) A < peak * A
        simp only [envelopeStep, lerp, habs]
        rw [if_pos ih]
        have hneg : (envDelayAfter attack release peak (fun _ => A) e i
            - peak * A) * attack < 0 :=
          mul_neg_of_neg_of_pos (by linarith) ha1
        linarith
    refine ⟨?_, aux⟩
    intro i
    have ih := aux i
    show envDelayAfter attack release peak (fun _ => A) e i
      < envelopeStep attack release peak
          (envDelayAfter attack release peak (fun _ => A) e i) A
    simp only [envelopeStep, lerp, habs]
    rw [if_pos ih]
    have h1 : 0 < (peak * A
        - envDelayAfter attack release peak (fun _ => A) e i)
        * (1 - attack) := mul_pos (by linarith) (by linarith)
    have key : peak * A
        + (envDelayAfter attack release peak (fun _ => A) e i - peak * A)
          * attack
        - envDelayAfter attack release peak (fun _ => A) e i
        = (peak * A - envDelayAfter attack release peak (fun _ => A) e i)
          * (1 - attack) := by ring
    linarith
  · intro hr1 hr2 hlt
    have aux : ∀ i,
        peak * |B| < envDelayAfter attack release peak (fun _ => B) e i := by
      intro i
      induction i with
      | zero => exact hlt
      | succ i ih =>
        show peak * |B| < envelopeStep attack release peak
          (envDelayAfter attack release peak (fun _ => B) e i) B
        simp only [envelopeStep, lerp]
        rw [if_neg (lt_asymm ih)]
        have hpos : 0 < (envDelayAfter attack release peak (fun _ => B) e i
            - peak * |B|) * release := mul_pos (by linarith) hr1
        linarith
    intro i
    have ih := aux i
    show envelopeStep attack release peak
        (envDelayAfter attack release peak (fun _ => B) e i) B
      < envDelayAfter attack release peak (fun _ => B) e i
    simp only [envelopeStep, lerp]
    rw [if_neg (lt_asymm ih)]
    have h1 : (peak * |B|
        - envDelayAfter attack release peak (fun _ => B) e i)
        * (1 - release) < 0 :=
      mul_neg_of_neg_of_pos (by linarith) (by linarith)
    have key : peak * |B|
        + (envDelayAfter attack release peak (fun _ => B) e i - peak * |B|)
          * release
        - envDelayAfter attack release peak (fun _ => B) e i
        = (peak * |B|
            - envDelayAfter attack release peak (fun _ => B) e i)
          * (1 - release) := by ring
    linarith

/-- Witness: one rising step from delay 0 under constant input 1, and one
falling step from delay 1 under constant input 0, at rates 1/2. -/
theorem envelope_monotone_witness :
    envDelayAfter (1/2 : ℚ) (1/2) 1 (fun _ => 1) 0 0
      < envDelayAfter (1/2 : ℚ) (1/2) 1 (fun _ => 1) 0 1
    ∧ envDelayAfter (1/2 : ℚ) (1/2) 1 (fun _ => 0) 1 1
      < envDelayAfter (1/2 : ℚ) (1/2) 1 (fun _ => 0) 1 0 :=
  ⟨((envelope_monotone (1/2 : ℚ) (1/2) 1 0 1 0).1 (by norm_num) (by norm_num)
      (by norm_num) (by norm_num)).1 0,
   (envelope_monotone (1/2 : ℚ) (1/2) 1 1 1 0).2 (by norm_num) (by norm_num)
      (by norm_num) 0⟩

/-- Claim C5: for each of the four float parameters, `setParamf` with a value
inside the documented `[min, max]` (endpoints included) stores it and signals
no error, while a value outside the range signals `AL_INVALID_VALUE` and
leaves the parameter bag unchanged. -/
theorem setParamf_range (props : AutowahProps α) (v : α) :
    ((AL_AUTOWAH_MIN_ATTACK_TIME ≤ v ∧ v ≤ AL_AUTOWAH_MAX_ATTACK_TIME) →
      ALautowah_setParamf props AL_AUTOWAH_ATTACK_TIME v
        = ({ props with AttackTime := v }, none)) ∧
    (¬(AL_AUTOWAH_MIN_ATTACK_TIME ≤ v ∧ v ≤ AL_AUTOWAH_MAX_ATTACK_TIME) →
      ALautowah_setParamf props AL_AUTOWAH_ATTACK_TIME v
        = (props, some ALerror.InvalidValue)) ∧
    ((AL_AUTOWAH_MIN_RELEASE_TIME ≤ v ∧ v ≤ AL_AUTOWAH_MAX_RELEASE_TIME) →
      ALautowah_setParamf props AL_AUTOWAH_RELEASE_TIME v
        = ({ props with ReleaseTime := v }, none)) ∧
    (¬(AL_AUTOWAH_MIN_RELEASE_TIME ≤ v ∧ v ≤ AL_AUTOWAH_MAX_RELEASE_TIME) →
      ALautowah_setParamf props AL_AUTOWAH_RELEASE_TIME v
        = (props, some ALerror.InvalidValue)) ∧
    ((AL_AUTOWAH_MIN_RESONANCE ≤ v ∧ v ≤ AL_AUTOWAH_MAX_RESONANCE) →
      ALautowah_setParamf props AL_AUTOWAH_RESONANCE v
        = ({ props with Resonance := v }, none)) ∧
    (¬(AL_AUTOWAH_MIN_RESONANCE ≤ v ∧ v ≤ AL_AUTOWAH_MAX_RESONANCE) →
      ALautowah_setParamf props AL_AUTOWAH_RESONANCE v
        = (props, some ALerror.InvalidValue)) ∧
    ((AL_AUTOWAH_MIN_PEAK_GAIN ≤ v ∧ v ≤ AL_AUTOWAH_MAX_PEAK_GAIN) →
      ALautowah_setParamf props AL_AUTOWAH_PEAK_GAIN v
        = ({ props with PeakGain := v }, none)) ∧
    (¬(AL_AUTOWAH_MIN_PEAK_GAIN ≤ v ∧ v ≤ AL_AUTOWAH_MAX_PEAK_GAIN) →
      ALautowah_setParamf props AL_AUTOWAH_PEAK_GAIN v
        = (props, some ALerror.InvalidValue)) := by
  refine ⟨fun h => ?_, fun h => ?_, fun h => ?_, fun h => ?_, fun h => ?_,
    fun h => ?_, fun h => ?_, fun h => ?_⟩ <;>
    simp [ALautowah_setParamf, AL_AUTOWAH_ATTACK_TIME,
      AL_AUTOWAH_RELEASE_TIME, AL_AUTOWAH_RESONANCE, AL_AUTOWAH_PEAK_GAIN, h]

/-- Witness: storing 1/2 as the attack time succeeds; storing 2 (above the
maximum of 1) fails with `AL_INVALID_VALUE` and leaves the bag unchanged. -/
theorem setParamf_range_witness :
    ALautowah_setParamf (getDefaultProps (α := ℚ)) AL_AUTOWAH_ATTACK_TIME (1/2)
      = ({ getDefaultProps with AttackTime := 1/2 }, none)
    ∧ ALautowah_setParamf (getDefaultProps (α := ℚ)) AL_AUTOWAH_ATTACK_TIME 2
      = (getDefaultProps, some ALerror.InvalidValue) :=
  ⟨(setParamf_range (getDefaultProps (α := ℚ)) (1/2)).1
      (by norm_num [AL_AUTOWAH_MIN_ATTACK_TIME, AL_AUTOWAH_MAX_ATTACK_TIME]),
   (setParamf_range (getDefaultProps (α := ℚ)) 2).2.1
      (by norm_num [AL_AUTOWAH_MIN_ATTACK_TIME, AL_AUTOWAH_MAX_ATTACK_TIME])⟩

/-- Claim C9: an unrecognized identifier makes `setParamf` and `getParamf`
signal `AL_INVALID_ENUM` with no mutation and nothing written, and the four
integer entry points signal `AL_INVALID_ENUM` for every identifier without
mutating anything. -/
theorem integer_params_invalid_enum (props : AutowahProps α) (v : α)
    (iv : Int) (ivals : Nat → Int) (param : Nat) :
    ((param ≠ AL_AUTOWAH_ATTACK_TIME → param ≠ AL_AUTOWAH_RELEASE_TIME →
      param ≠ AL_AUTOWAH_RESONANCE → param ≠ AL_AUTOWAH_PEAK_GAIN →
      ALautowah_setParamf props param v = (props, some ALerror.InvalidEnum)
      ∧ ALautowah_getParamf props param = (none, some ALerror.InvalidEnum))
    ∧ ALautowah_setParami props param iv = (props, some ALerror.InvalidEnum)
    ∧ ALautowah_setParamiv props param ivals
        = (props, some ALerror.InvalidEnum)
    ∧ ALautowah_getParami props param = (none, some ALerror.InvalidEnum)
    ∧ ALautowah_getParamiv props param
        = (none, some ALerror.InvalidEnum)) := by
  refine ⟨?_, rfl, rfl, rfl, rfl⟩
  intro h1 h2 h3 h4
  constructor <;>
    simp [ALautowah_setParamf, ALautowah_getParamf, h1, h2, h3, h4]

/-- Witness: identifier 99 is rejected with `AL_INVALID_ENUM` by the float
setter, leaving the default bag unchanged. -/
theorem integer_params_invalid_enum_witness :
    ALautowah_setParamf (getDefaultProps (α := ℚ)) 99 (1/2)
      = (getDefaultProps, some ALerror.InvalidEnum) :=
  ((integer_params_invalid_enum (getDefaultProps (α := ℚ)) (1/2) 0
      (fun _ => 0) 99).1 (by decide) (by decide) (by decide) (by decide)).1

end Autowah
